import Mathlib

/-!
Verification development for `dataset_tools.py` of the InReDD-Dataset
repository: a shallow embedding of the `InReDDDataset` corpus index, the
`DatasetStats` single-pass aggregator and the `describe` driver, together
with theorems about the spec's testable properties.

Conventions of the embedding:
* Python dicts used as annotation objects become a structure with
  `Option`-typed fields (`none` = field absent, i.e. `dict.get` returns
  `None`).
* `collections.Counter` objects become `Multiset String` (a counter is
  determined by the multiset of elements fed to `Counter.update`).
* Mutation becomes explicit state passing; Python exceptions become
  `Except PyError`.
* Machine floats produced by `statistics.mean` / `round` are modelled as
  exact rationals, with `round(x, 2)` modelled as decimal round-half-to-even.
* The filesystem seen by the dataset is a value `FSModel`: the files under
  `images/` (filename stem, extension, nesting depth) and the parsed JSON
  content of `annotations/<id>.json` for each id (or `none` if absent).
-/

namespace InReDD

/-- A JSON `tooth_id` value: the annotation format allows a string or a
number (`dataset_tools.py` applies `str(...)` to it). -/
inductive TId where
  | str : String → TId
  | num : Int → TId
deriving DecidableEq, Repr

/-- Python `str(tid)`. -/
def TId.toStr : TId → String
  | .str s => s
  | .num n => toString n

/-- One labeled object inside an annotation record: the three optional
fields read by `DatasetStats.update`. `none` means the key is absent
(`dict.get` returns `None`). -/
structure AnnObj where
  tooth_id : Option TId := none
  conditions : Option (List (String × Bool)) := none
  image_status : Option String := none
deriving DecidableEq, Repr

/-- An annotation record, as loaded from `annotations/<id>.json`: either a
single object or a sequence of objects. -/
inductive Ann where
  | single : AnnObj → Ann
  | seq : List AnnObj → Ann
deriving DecidableEq, Repr

/-- `objs = ann if isinstance(ann, Sequence) else [ann]` (a dict is not a
`Sequence`, a list is). -/
def Ann.normalize : Ann → List AnnObj
  | .single o => [o]
  | .seq l => l

/-- Number of labeled objects (`len(objs)`) of a record. -/
def Ann.numObjs (a : Ann) : Nat := a.normalize.length

/-- Decidable equality of `Except` results, for concrete evaluation. -/
instance {ε α : Type u} [DecidableEq ε] [DecidableEq α] : DecidableEq (Except ε α) := fun x y =>
  match x, y with
  | .error a, .error b =>
    if h : a = b then .isTrue (by rw [h]) else .isFalse (by intro hh; cases hh; exact h rfl)
  | .error _, .ok _ => .isFalse (by intro hh; cases hh)
  | .ok _, .error _ => .isFalse (by intro hh; cases hh)
  | .ok a, .ok b =>
    if h : a = b then .isTrue (by rw [h]) else .isFalse (by intro hh; cases hh; exact h rfl)

/-- The Python exceptions the module can raise. -/
inductive PyError where
  | fileNotFound
  | indexError
  | statisticsError
deriving DecidableEq, Repr

/-- State of the `DatasetStats` accumulator: the three `Counter`s (as
multisets of counted keys), the running box total and the per-image
box-count history. -/
structure DatasetStats where
  image_status : Multiset String
  conditions : Multiset String
  tooth_ids : Multiset String
  n_boxes_total : Nat
  boxes_per_image : List Nat
deriving DecidableEq

/-- `DatasetStats.__init__`: everything empty. -/
def DatasetStats.init : DatasetStats :=
  { image_status := 0, conditions := 0, tooth_ids := 0
    n_boxes_total := 0, boxes_per_image := [] }

/-- Body of the `for obj in objs` loop of `DatasetStats.update`:
`tooth_id` counted when present (`is not None`, so falsy-but-present
values count); condition names with a truthy value counted; `image_status`
counted when truthy (present and non-empty). -/
def updObj (s : DatasetStats) (o : AnnObj) : DatasetStats :=
  let s1 := match o.tooth_id with
    | some tid => { s with tooth_ids := tid.toStr ::ₘ s.tooth_ids }
    | none => s
  let s2 := { s1 with conditions :=
    s1.conditions + (((o.conditions.getD []).filter (fun cv => cv.2)).map (fun cv => cv.1) : List String) }
  match o.image_status with
  | some st => if st = "" then s2 else { s2 with image_status := st ::ₘ s2.image_status }
  | none => s2

/-- `DatasetStats.update(ann)`: append the object count to the history,
add it to the running total, then fold every object into the counters. -/
def DatasetStats.update (s : DatasetStats) (ann : Ann) : DatasetStats :=
  let objs := ann.normalize
  let s1 := { s with
    boxes_per_image := s.boxes_per_image ++ [objs.length]
    n_boxes_total := s.n_boxes_total + objs.length }
  objs.foldl updObj s1

/-- Round `a / b` (with `b > 0`) to the nearest integer with ties to
even — the tie rule of Python's `round` — written on exact integers:
`f` is the floor of the quotient and `r2` twice the remainder. -/
def roundHalfEvenDiv (a b : ℤ) : ℤ :=
  let f := Int.fdiv a b
  let r2 := 2 * (a - f * b)
  if r2 < b then f
  else if b < r2 then f + 1
  else if f % 2 = 0 then f else f + 1

/-- Python `round(q, 2)` (the embedding works on exact rationals rather
than binary floats). -/
def pyRound2 (q : ℚ) : ℚ := mkRat (roundHalfEvenDiv (100 * q.num) (q.den : ℤ)) 100

/-- `statistics.mean` of a list of box counts as an exact fraction (only
called on a non-empty list). -/
def pyMean (l : List Nat) : ℚ := mkRat (l.sum : ℤ) l.length

/-- `statistics.median`: sort, take the middle element for odd length, the
midpoint average of the two middle elements for even length. -/
def pyMedian (l : List Nat) : ℚ :=
  let s := l.insertionSort (· ≤ ·)
  let n := s.length
  if n % 2 = 1 then ((s.getD (n / 2) 0 : ℕ) : ℚ)
  else mkRat (((s.getD (n / 2 - 1) 0 : ℕ) : ℤ) + ((s.getD (n / 2) 0 : ℕ) : ℤ)) 2

/-- Python `min` on a list (the `[]` branch is unreachable where used:
`summary` guards a non-empty history). -/
def listMin : List Nat → Nat
  | [] => 0
  | x :: xs => xs.foldl Nat.min x

/-- Python `max` on a list (same remark as `listMin`). -/
def listMax : List Nat → Nat
  | [] => 0
  | x :: xs => xs.foldl Nat.max x

/-- The `boxes_per_image` sub-dict of the summary. -/
structure BPIStats where
  mean : ℚ
  median : ℚ
  min : Nat
  max : Nat
deriving DecidableEq

/-- A value of the summary dict: an integer count, the `boxes_per_image`
sub-dict, or (in `describe`'s output) a `Counter`. -/
inductive SVal where
  | nat : Nat → SVal
  | bpi : BPIStats → SVal
  | counter : Multiset String → SVal
deriving DecidableEq

/-- `DatasetStats.summary()`: the literal dict the source returns.
`statistics.mean` raises `StatisticsError` on an empty history, so the
call fails before producing any dict in that case. -/
def DatasetStats.summary (s : DatasetStats) : Except PyError (List (String × SVal)) :=
  match s.boxes_per_image with
  | [] => .error .statisticsError
  | _ :: _ =>
    .ok [("images", .nat s.boxes_per_image.length),
         ("boxes", .nat s.n_boxes_total),
         ("boxes_per_image", .bpi
           { mean := pyRound2 (pyMean s.boxes_per_image)
             median := pyMedian s.boxes_per_image
             min := listMin s.boxes_per_image
             max := listMax s.boxes_per_image })]

/-- The `summary` method in state-passing form: the body only reads the
accumulator's fields, so the state component is returned unchanged. -/
def DatasetStats.summaryOp (s : DatasetStats) :
    DatasetStats × Except PyError (List (String × SVal)) :=
  (s, s.summary)

/-- A file under `images/`: its filename stem, its extension (the final
suffix, dot included) and its nesting depth below `images/` (depth 0 =
directly inside; `rglob` sees every depth, `glob` only depth 0). -/
structure ImgFile where
  stem : String
  ext : String
  depth : Nat
deriving DecidableEq, Repr

/-- The filesystem content a dataset instance reads: the files under
`images/` and, for each id, the parsed content of `annotations/<id>.json`
(`none` = no such file). -/
structure FSModel where
  imgFiles : List ImgFile
  anns : String → Option Ann

/-- `InReDDDataset.IMG_EXTS`. -/
def IMG_EXTS : List String := [".png", ".jpg", ".jpeg"]

/-- The stems collected by the constructor's scan:
`{p.stem for ext in IMG_EXTS for p in globber(ext)}` before
deduplication — `globber(ext)` is `rglob` (all depths) or `glob`
(depth 0 only) according to the `recursive` flag. -/
def scanStems (fs : FSModel) (recursive : Bool) : List String :=
  IMG_EXTS.flatMap fun e =>
    (fs.imgFiles.filter fun f => (recursive || f.depth == 0) && f.ext == e).map ImgFile.stem

/-- An in-memory image as produced by `Image.open(...).convert("L")`. -/
structure PilImage where
  stem : String
  ext : String
  mode : String
deriving DecidableEq, Repr

/-- The constructed corpus index: the filesystem it was built over, the
sorted deduplicated id list, and the two construction-time options that
`__getitem__` consults. -/
structure InReDDDataset where
  fs : FSModel
  ids : List String
  load_images : Bool
  transforms : Option ((Option PilImage × Ann) → (Option PilImage × Ann))

/-- `InReDDDataset.__init__`: scan, dedupe and sort the stems
(`sorted({...})`), and raise `FileNotFoundError` right away when the id
set is empty. -/
def InReDDDataset.make (fs : FSModel) (load_images : Bool)
    (transforms : Option ((Option PilImage × Ann) → (Option PilImage × Ann)))
    (recursive : Bool) : Except PyError InReDDDataset :=
  let ids := ((scanStems fs recursive).dedup.insertionSort (· ≤ ·))
  if ids.isEmpty then .error .fileNotFound
  else .ok { fs := fs, ids := ids, load_images := load_images, transforms := transforms }

/-- The image lookup of `__getitem__` when `load_images` is set:
`next(img_dir.rglob(f"{img_id}{ext}"), None)` for each allowed extension
in order — always recursive, whatever the construction flag was. -/
def findImage (fs : FSModel) (img_id : String) : Option ImgFile :=
  IMG_EXTS.findSome? fun e =>
    fs.imgFiles.find? fun f => f.stem == img_id && f.ext == e

/-- `if self.transforms is not None: image, target = self.transforms(image, target)`. -/
def applyTransforms (t : Option ((Option PilImage × Ann) → (Option PilImage × Ann)))
    (p : Option PilImage × Ann) : Option PilImage × Ann :=
  match t with
  | some f => f p
  | none => p

/-- `InReDDDataset.__getitem__(idx)`. The result also carries the number
of image files opened and decoded during the call (0 or 1), so that
image-loading effects are observable in the embedding. -/
def InReDDDataset.getitem (ds : InReDDDataset) (idx : Nat) :
    Except PyError ((Option PilImage × Ann) × Nat) :=
  match ds.ids[idx]? with
  | none => .error .indexError
  | some img_id =>
    match ds.fs.anns img_id with
    | none => .error .fileNotFound
    | some target =>
      if ds.load_images then
        match findImage ds.fs img_id with
        | none => .error .fileNotFound
        | some f =>
          .ok (applyTransforms ds.transforms (some ⟨f.stem, f.ext, "L"⟩, target), 1)
      else
        .ok (applyTransforms ds.transforms (none, target), 0)

/-- Driving the generator over a given index order: collect `self[i][1]`
for each index, summing the image-load counts; the first failing
`__getitem__` aborts the pass. -/
def iterFrom (ds : InReDDDataset) : List Nat → Except PyError (List Ann × Nat)
  | [] => .ok ([], 0)
  | i :: rest =>
    match ds.getitem i with
    | .error e => .error e
    | .ok (pair, n) =>
      match iterFrom ds rest with
      | .error e => .error e
      | .ok (xs, m) => .ok (pair.2 :: xs, n + m)

/-- `InReDDDataset.iter_annotations`: `self[i][1]` for `i` in
`range(len(self))`, run to exhaustion. -/
def InReDDDataset.iterAnns (ds : InReDDDataset) : Except PyError (List Ann × Nat) :=
  iterFrom ds (List.range ds.ids.length)

/-- Folding a list of records into an accumulator (`for ann in ...:
acc.update(ann)` starting from a fresh `DatasetStats`). -/
def runUpdates (l : List Ann) : DatasetStats :=
  l.foldl DatasetStats.update DatasetStats.init

/-- `describe(root)`: build the index with `load_images=False`, fold every
annotation into a fresh accumulator, take `summary()` and attach the three
`Counter` objects of the accumulator to the returned dict (the source
stores the very objects, `out["image_status"] = acc.image_status`, not
copies; the embedding records their values). The progress-bar wrapper is
output-transparent and is omitted. -/
def describe (fs : FSModel) : Except PyError (List (String × SVal)) :=
  match InReDDDataset.make fs false none true with
  | .error e => .error e
  | .ok ds =>
    match ds.iterAnns with
    | .error e => .error e
    | .ok (annList, _) =>
      let acc := runUpdates annList
      match acc.summary with
      | .error e => .error e
      | .ok out =>
        .ok (out ++ [("image_status", .counter acc.image_status),
                     ("conditions", .counter acc.conditions),
                     ("tooth_ids", .counter acc.tooth_ids)])

/-! ### Per-object contributions to the three counters -/

theorem cons_eq_add_singleton (a : String) (s : Multiset String) :
    a ::ₘ s = s + {a} := by
  rw [add_comm, Multiset.singleton_add]

/-- What one object contributes to the `tooth_ids` counter. -/
def objTooth (o : AnnObj) : Multiset String :=
  match o.tooth_id with
  | some tid => {tid.toStr}
  | none => 0

/-- What one object contributes to the `conditions` counter. -/
def objConds (o : AnnObj) : Multiset String :=
  (((o.conditions.getD []).filter (fun cv => cv.2)).map (fun cv => cv.1) : List String)

/-- What one object contributes to the `image_status` counter. -/
def objStatus (o : AnnObj) : Multiset String :=
  match o.image_status with
  | some st => if st = "" then 0 else {st}
  | none => 0

theorem updObj_tooth_ids (s : DatasetStats) (o : AnnObj) :
    (updObj s o).tooth_ids = s.tooth_ids + objTooth o := by
  unfold updObj objTooth
  cases o.tooth_id <;> cases o.image_status <;> dsimp <;> (try split) <;>
    first
    | rfl
    | simp [cons_eq_add_singleton]

theorem updObj_conditions (s : DatasetStats) (o : AnnObj) :
    (updObj s o).conditions = s.conditions + objConds o := by
  unfold updObj objConds
  cases o.tooth_id <;> cases o.image_status <;> dsimp <;> (try split) <;> rfl

theorem updObj_image_status (s : DatasetStats) (o : AnnObj) :
    (updObj s o).image_status = s.image_status + objStatus o := by
  unfold updObj objStatus
  cases o.tooth_id <;> cases o.image_status <;> dsimp <;> (try split) <;>
    first
    | rfl
    | simp [cons_eq_add_singleton]

theorem updObj_boxes_per_image (s : DatasetStats) (o : AnnObj) :
    (updObj s o).boxes_per_image = s.boxes_per_image := by
  unfold updObj
  cases o.tooth_id <;> cases o.image_status <;> dsimp <;> (try split) <;> rfl

theorem updObj_n_boxes_total (s : DatasetStats) (o : AnnObj) :
    (updObj s o).n_boxes_total = s.n_boxes_total := by
  unfold updObj
  cases o.tooth_id <;> cases o.image_status <;> dsimp <;> (try split) <;> rfl

theorem foldl_updObj_tooth_ids (objs : List AnnObj) (s : DatasetStats) :
    (objs.foldl updObj s).tooth_ids = s.tooth_ids + (objs.map objTooth).sum := by
  induction objs generalizing s with
  | nil => simp
  | cons o rest ih => simp [ih, updObj_tooth_ids, add_assoc]

theorem foldl_updObj_conditions (objs : List AnnObj) (s : DatasetStats) :
    (objs.foldl updObj s).conditions = s.conditions + (objs.map objConds).sum := by
  induction objs generalizing s with
  | nil => simp
  | cons o rest ih => simp [ih, updObj_conditions, add_assoc]

theorem foldl_updObj_image_status (objs : List AnnObj) (s : DatasetStats) :
    (objs.foldl updObj s).image_status = s.image_status + (objs.map objStatus).sum := by
  induction objs generalizing s with
  | nil => simp
  | cons o rest ih => simp [ih, updObj_image_status, add_assoc]

theorem foldl_updObj_boxes_per_image (objs : List AnnObj) (s : DatasetStats) :
    (objs.foldl updObj s).boxes_per_image = s.boxes_per_image := by
  induction objs generalizing s with
  | nil => rfl
  | cons o rest ih => simp [ih, updObj_boxes_per_image]

theorem foldl_updObj_n_boxes_total (objs : List AnnObj) (s : DatasetStats) :
    (objs.foldl updObj s).n_boxes_total = s.n_boxes_total := by
  induction objs generalizing s with
  | nil => rfl
  | cons o rest ih => simp [ih, updObj_n_boxes_total]

/-! ### Per-record contributions -/

/-- What one record contributes to the `tooth_ids` counter. -/
def annTooth (a : Ann) : Multiset String := (a.normalize.map objTooth).sum

/-- What one record contributes to the `conditions` counter. -/
def annConds (a : Ann) : Multiset String := (a.normalize.map objConds).sum

/-- What one record contributes to the `image_status` counter. -/
def annStatus (a : Ann) : Multiset String := (a.normalize.map objStatus).sum

theorem update_tooth_ids (s : DatasetStats) (a : Ann) :
    (s.update a).tooth_ids = s.tooth_ids + annTooth a := by
  unfold DatasetStats.update annTooth
  rw [foldl_updObj_tooth_ids]

theorem update_conditions (s : DatasetStats) (a : Ann) :
    (s.update a).conditions = s.conditions + annConds a := by
  unfold DatasetStats.update annConds
  rw [foldl_updObj_conditions]

theorem update_image_status (s : DatasetStats) (a : Ann) :
    (s.update a).image_status = s.image_status + annStatus a := by
  unfold DatasetStats.update annStatus
  rw [foldl_updObj_image_status]

theorem update_boxes_per_image (s : DatasetStats) (a : Ann) :
    (s.update a).boxes_per_image = s.boxes_per_image ++ [a.numObjs] := by
  unfold DatasetStats.update Ann.numObjs
  rw [foldl_updObj_boxes_per_image]

theorem update_n_boxes_total (s : DatasetStats) (a : Ann) :
    (s.update a).n_boxes_total = s.n_boxes_total + a.numObjs := by
  unfold DatasetStats.update Ann.numObjs
  rw [foldl_updObj_n_boxes_total]

/-! ### Characterization of a whole pass -/

theorem foldl_update_tooth_ids (l : List Ann) (s : DatasetStats) :
    (l.foldl DatasetStats.update s).tooth_ids = s.tooth_ids + (l.map annTooth).sum := by
  induction l generalizing s with
  | nil => simp
  | cons a rest ih => simp [ih, update_tooth_ids, add_assoc]

theorem foldl_update_conditions (l : List Ann) (s : DatasetStats) :
    (l.foldl DatasetStats.update s).conditions = s.conditions + (l.map annConds).sum := by
  induction l generalizing s with
  | nil => simp
  | cons a rest ih => simp [ih, update_conditions, add_assoc]

theorem foldl_update_image_status (l : List Ann) (s : DatasetStats) :
    (l.foldl DatasetStats.update s).image_status = s.image_status + (l.map annStatus).sum := by
  induction l generalizing s with
  | nil => simp
  | cons a rest ih => simp [ih, update_image_status, add_assoc]

theorem foldl_update_boxes_per_image (l : List Ann) (s : DatasetStats) :
    (l.foldl DatasetStats.update s).boxes_per_image
      = s.boxes_per_image ++ l.map Ann.numObjs := by
  induction l generalizing s with
  | nil => simp
  | cons a rest ih => simp [ih, update_boxes_per_image]

theorem foldl_update_n_boxes_total (l : List Ann) (s : DatasetStats) :
    (l.foldl DatasetStats.update s).n_boxes_total
      = s.n_boxes_total + (l.map Ann.numObjs).sum := by
  induction l generalizing s with
  | nil => simp
  | cons a rest ih => simp [ih, update_n_boxes_total, add_assoc]

theorem runUpdates_tooth_ids (l : List Ann) :
    (runUpdates l).tooth_ids = (l.map annTooth).sum := by
  unfold runUpdates; rw [foldl_update_tooth_ids]; simp [DatasetStats.init]

theorem runUpdates_conditions (l : List Ann) :
    (runUpdates l).conditions = (l.map annConds).sum := by
  unfold runUpdates; rw [foldl_update_conditions]; simp [DatasetStats.init]

theorem runUpdates_image_status (l : List Ann) :
    (runUpdates l).image_status = (l.map annStatus).sum := by
  unfold runUpdates; rw [foldl_update_image_status]; simp [DatasetStats.init]

theorem runUpdates_boxes_per_image (l : List Ann) :
    (runUpdates l).boxes_per_image = l.map Ann.numObjs := by
  unfold runUpdates; rw [foldl_update_boxes_per_image]; simp [DatasetStats.init]

theorem runUpdates_n_boxes_total (l : List Ann) :
    (runUpdates l).n_boxes_total = (l.map Ann.numObjs).sum := by
  unfold runUpdates; rw [foldl_update_n_boxes_total]; simp [DatasetStats.init]

/-! ### Permutation invariance of the descriptive statistics -/

theorem nat_min_choice (a x : Nat) : Nat.min a x = a ∨ Nat.min a x = x := by
  show min a x = a ∨ min a x = x
  rcases le_total a x with h | h
  · exact Or.inl (min_eq_left h)
  · exact Or.inr (min_eq_right h)

theorem nat_max_choice (a x : Nat) : Nat.max a x = a ∨ Nat.max a x = x := by
  show max a x = a ∨ max a x = x
  rcases le_total a x with h | h
  · exact Or.inr (max_eq_right h)
  · exact Or.inl (max_eq_left h)

theorem foldl_min_le_init (l : List Nat) (a : Nat) : l.foldl Nat.min a ≤ a := by
  induction l generalizing a with
  | nil => exact le_refl a
  | cons x xs ih => exact le_trans (ih (Nat.min a x)) (Nat.min_le_left a x)

theorem foldl_min_le_mem (l : List Nat) (b : Nat) :
    b ∈ l → ∀ a, l.foldl Nat.min a ≤ b := by
  induction l with
  | nil => intro hb; cases hb
  | cons x xs ih =>
    intro hb a
    rcases List.mem_cons.mp hb with rfl | hb2
    · exact le_trans (foldl_min_le_init xs (Nat.min a b)) (Nat.min_le_right a b)
    · exact ih hb2 (Nat.min a x)

theorem foldl_min_mem (l : List Nat) (a : Nat) :
    l.foldl Nat.min a = a ∨ l.foldl Nat.min a ∈ l := by
  induction l generalizing a with
  | nil => exact Or.inl rfl
  | cons x xs ih =>
    rcases ih (Nat.min a x) with h | h
    · rw [List.foldl_cons, h]
      rcases nat_min_choice a x with h2 | h2
      · exact Or.inl h2
      · rw [h2]; exact Or.inr (List.mem_cons_self x xs)
    · exact Or.inr (List.mem_cons_of_mem x h)

theorem listMin_le (l : List Nat) (b : Nat) (hb : b ∈ l) : listMin l ≤ b := by
  cases l with
  | nil => cases hb
  | cons x xs =>
    rcases List.mem_cons.mp hb with rfl | hb2
    · exact foldl_min_le_init xs b
    · exact foldl_min_le_mem xs b hb2 x

theorem listMin_mem (l : List Nat) (h : l ≠ []) : listMin l ∈ l := by
  cases l with
  | nil => exact absurd rfl h
  | cons x xs =>
    rcases foldl_min_mem xs x with h1 | h1
    · rw [listMin, h1]; exact List.mem_cons_self x xs
    · exact List.mem_cons_of_mem x h1

theorem listMin_perm (l₁ l₂ : List Nat) (h : l₁.Perm l₂) : listMin l₁ = listMin l₂ := by
  cases l₁ with
  | nil => rw [h.nil_eq.symm]
  | cons x xs =>
    have h₁ : (x :: xs) ≠ [] := by simp
    have h₂ : l₂ ≠ [] := by
      intro he; rw [he] at h; exact h₁ h.eq_nil
    exact le_antisymm
      (listMin_le _ _ (h.mem_iff.mpr (listMin_mem l₂ h₂)))
      (listMin_le _ _ (h.mem_iff.mp (listMin_mem _ h₁)))

theorem foldl_max_ge_init (l : List Nat) (a : Nat) : a ≤ l.foldl Nat.max a := by
  induction l generalizing a with
  | nil => exact le_refl a
  | cons x xs ih => exact le_trans (Nat.le_max_left a x) (ih (Nat.max a x))

theorem foldl_max_ge_mem (l : List Nat) (b : Nat) :
    b ∈ l → ∀ a, b ≤ l.foldl Nat.max a := by
  induction l with
  | nil => intro hb; cases hb
  | cons x xs ih =>
    intro hb a
    rcases List.mem_cons.mp hb with rfl | hb2
    · exact le_trans (Nat.le_max_right a b) (foldl_max_ge_init xs (Nat.max a b))
    · exact ih hb2 (Nat.max a x)

theorem foldl_max_mem (l : List Nat) (a : Nat) :
    l.foldl Nat.max a = a ∨ l.foldl Nat.max a ∈ l := by
  induction l generalizing a with
  | nil => exact Or.inl rfl
  | cons x xs ih =>
    rcases ih (Nat.max a x) with h | h
    · rw [List.foldl_cons, h]
      rcases nat_max_choice a x with h2 | h2
      · exact Or.inl h2
      · rw [h2]; exact Or.inr (List.mem_cons_self x xs)
    · exact Or.inr (List.mem_cons_of_mem x h)

theorem listMax_ge (l : List Nat) (b : Nat) (hb : b ∈ l) : b ≤ listMax l := by
  cases l with
  | nil => cases hb
  | cons x xs =>
    rcases List.mem_cons.mp hb with rfl | hb2
    · exact foldl_max_ge_init xs b
    · exact foldl_max_ge_mem xs b hb2 x

theorem listMax_mem (l : List Nat) (h : l ≠ []) : listMax l ∈ l := by
  cases l with
  | nil => exact absurd rfl h
  | cons x xs =>
    rcases foldl_max_mem xs x with h1 | h1
    · rw [listMax, h1]; exact List.mem_cons_self x xs
    · exact List.mem_cons_of_mem x h1

theorem listMax_perm (l₁ l₂ : List Nat) (h : l₁.Perm l₂) : listMax l₁ = listMax l₂ := by
  cases l₁ with
  | nil => rw [h.nil_eq.symm]
  | cons x xs =>
    have h₁ : (x :: xs) ≠ [] := by simp
    have h₂ : l₂ ≠ [] := by
      intro he; rw [he] at h; exact h₁ h.eq_nil
    exact le_antisymm
      (listMax_ge l₂ _ (h.mem_iff.mp (listMax_mem _ h₁)))
      (listMax_ge (x :: xs) _ (h.mem_iff.mpr (listMax_mem l₂ h₂)))

theorem insertionSort_perm_eq (l₁ l₂ : List Nat) (h : l₁.Perm l₂) :
    l₁.insertionSort (· ≤ ·) = l₂.insertionSort (· ≤ ·) :=
  List.eq_of_perm_of_sorted
    (((List.perm_insertionSort _ l₁).trans h).trans (List.perm_insertionSort _ l₂).symm)
    (List.sorted_insertionSort _ l₁) (List.sorted_insertionSort _ l₂)

theorem pyMean_perm (l₁ l₂ : List Nat) (h : l₁.Perm l₂) : pyMean l₁ = pyMean l₂ := by
  unfold pyMean; rw [h.sum_eq, h.length_eq]

theorem pyMedian_perm (l₁ l₂ : List Nat) (h : l₁.Perm l₂) : pyMedian l₁ = pyMedian l₂ := by
  unfold pyMedian; rw [insertionSort_perm_eq l₁ l₂ h]

/-- `summary` only looks at the history through permutation-invariant
functions (and at the total): permuting the history does not change it. -/
theorem summary_congr (s₁ s₂ : DatasetStats)
    (hb : s₁.boxes_per_image.Perm s₂.boxes_per_image)
    (ht : s₁.n_boxes_total = s₂.n_boxes_total) : s₁.summary = s₂.summary := by
  have hlen := hb.length_eq
  have hmean := pyMean_perm _ _ hb
  have hmed := pyMedian_perm _ _ hb
  have hmin := listMin_perm _ _ hb
  have hmax := listMax_perm _ _ hb
  unfold DatasetStats.summary
  rcases h1 : s₁.boxes_per_image with _ | ⟨x, xs⟩ <;>
    rcases h2 : s₂.boxes_per_image with _ | ⟨y, ys⟩
  · rfl
  · rw [h1, h2] at hb; exact absurd hb.nil_eq (by simp)
  · rw [h1, h2] at hb; exact absurd hb.eq_nil (by simp)
  · rw [h1, h2] at hlen hmean hmed hmin hmax
    rw [hlen, hmean, hmed, hmin, hmax, ht]

/-! ### Corpus-index lemmas -/

theorem getitem_no_load (ds : InReDDDataset) (h : ds.load_images = false)
    (i : Nat) (p : Option PilImage × Ann) (n : Nat)
    (hg : ds.getitem i = .ok (p, n)) : n = 0 := by
  unfold InReDDDataset.getitem at hg
  rw [h] at hg
  rcases h1 : ds.ids[i]? with _ | img_id <;> rw [h1] at hg <;> dsimp only at hg
  · cases hg
  · rcases h2 : ds.fs.anns img_id with _ | target <;> rw [h2] at hg <;> dsimp only at hg
    · cases hg
    · simp at hg
      exact hg.2.symm

theorem iterFrom_no_load (ds : InReDDDataset) (h : ds.load_images = false) :
    ∀ (idxs : List Nat) (anns : List Ann) (n : Nat),
      iterFrom ds idxs = .ok (anns, n) → n = 0 ∧ anns.length = idxs.length := by
  intro idxs
  induction idxs with
  | nil =>
    intro anns n hit
    unfold iterFrom at hit
    simp at hit
    exact ⟨hit.2.symm, by simp [hit.1]⟩
  | cons i rest ih =>
    intro anns n hit
    unfold iterFrom at hit
    rcases hg : ds.getitem i with e | pk <;> rw [hg] at hit <;> dsimp only at hit
    · cases hit
    · rcases hr : iterFrom ds rest with e | xm <;> rw [hr] at hit <;> dsimp only at hit
      · cases hit
      · simp at hit
        obtain ⟨hanns, hn⟩ := hit
        have hk := getitem_no_load ds h i pk.1 pk.2 (by rw [hg])
        have hrest := ih xm.1 xm.2 (by rw [hr])
        refine ⟨by omega, ?_⟩
        rw [hanns.symm]
        simp [hrest.2]

theorem mem_scanStems (fs : FSModel) (recursive : Bool) (f : ImgFile)
    (hf : f ∈ fs.imgFiles) (he : f.ext ∈ IMG_EXTS)
    (hd : recursive = true ∨ f.depth = 0) : f.stem ∈ scanStems fs recursive := by
  unfold scanStems
  rw [List.mem_flatMap]
  refine ⟨f.ext, he, List.mem_map.mpr ⟨f, List.mem_filter.mpr ⟨hf, ?_⟩, rfl⟩⟩
  rcases hd with h | h <;> simp [h]

theorem scanStems_eq_nil (fs : FSModel) (recursive : Bool)
    (h : ∀ f ∈ fs.imgFiles, ¬ (f.ext ∈ IMG_EXTS ∧ (recursive = true ∨ f.depth = 0))) :
    scanStems fs recursive = [] := by
  rw [List.eq_nil_iff_forall_not_mem]
  intro stem hmem
  unfold scanStems at hmem
  rw [List.mem_flatMap] at hmem
  obtain ⟨e, he, hmm⟩ := hmem
  rw [List.mem_map] at hmm
  obtain ⟨f, hff, _⟩ := hmm
  rw [List.mem_filter] at hff
  obtain ⟨hf, hpred⟩ := hff
  have hp := h f hf
  apply hp
  simp at hpred
  obtain ⟨hvis, hext⟩ := hpred
  exact ⟨hext ▸ he, by
    rcases hvis with hrec | hdep
    · exact Or.inl hrec
    · exact Or.inr hdep⟩

/-- Keys of the dict returned by a successful `summary` call: exactly the
three statistics entries; none of the counter keys appears. -/
theorem summary_keys (s : DatasetStats) (h : s.boxes_per_image ≠ []) :
    s.summary.toOption.isSome = true ∧
    (s.summary.toOption.getD []).map Prod.fst = ["images", "boxes", "boxes_per_image"] ∧
    (s.summary.toOption.getD []).lookup "image_status" = none ∧
    (s.summary.toOption.getD []).lookup "conditions" = none ∧
    (s.summary.toOption.getD []).lookup "tooth_ids" = none := by
  unfold DatasetStats.summary
  rcases hb : s.boxes_per_image with _ | ⟨x, xs⟩
  · exact absurd hb h
  · simp [List.lookup, Except.toOption]

/-! ### Concrete sample data for scenarios, witnesses and counterexamples -/

/-- First record of the spec's three-record scenario. -/
def sampleR1 : Ann :=
  .seq [{ tooth_id := some (.str "11"), conditions := some [("caries", true)] }]

/-- Second record of the spec's three-record scenario. -/
def sampleR2 : Ann :=
  .seq [{ tooth_id := some (.str "11"), conditions := some [("caries", false)] },
        { tooth_id := some (.str "12"), conditions := some [] }]

/-- Third record of the spec's three-record scenario. -/
def sampleR3 : Ann :=
  .seq [{ image_status := some "poor" }]

/-- A filesystem with one image `images/a.png` and one matching
annotation `annotations/a.json`. -/
def sampleFS1 : FSModel :=
  { imgFiles := [{ stem := "a", ext := ".png", depth := 0 }]
    anns := fun i => if i = "a" then some sampleR1 else none }

/-- A filesystem whose `images/` directory holds no file with an allowed
extension. -/
def sampleFS0 : FSModel :=
  { imgFiles := [{ stem := "a", ext := ".txt", depth := 0 }]
    anns := fun _ => none }

/-- The dataset over `sampleFS1` with image loading off (the value
`InReDDDataset.make sampleFS1 false none true` evaluates to). -/
def sampleDSnoLoad : InReDDDataset :=
  { fs := sampleFS1, ids := ["a"], load_images := false, transforms := none }

/-- The summary dict of the state reached by one `update sampleR1` call. -/
def sampleSummary1 : List (String × SVal) :=
  [("images", .nat 1), ("boxes", .nat 1),
   ("boxes_per_image", .bpi { mean := 1, median := 1, min := 1, max := 1 })]

/-! ### The claims -/

/-- C1: feeding the three scenario records through one `update` call each
and then calling `summary` yields images=3, boxes=4, boxes_per_image
mean=1.33 (= 133/100), median=1, min=1, max=2, and leaves the counters at
tooth_ids {"11": 2, "12": 1}, conditions {"caries": 1},
image_status {"poor": 1}. -/
theorem C1_three_record_scenario :
    (runUpdates [sampleR1, sampleR2, sampleR3]).summary
      = .ok [("images", .nat 3), ("boxes", .nat 4),
             ("boxes_per_image", .bpi
               { mean := mkRat 133 100, median := 1, min := 1, max := 2 })] ∧
    (runUpdates [sampleR1, sampleR2, sampleR3]).tooth_ids = {"11", "11", "12"} ∧
    (runUpdates [sampleR1, sampleR2, sampleR3]).conditions = {"caries"} ∧
    (runUpdates [sampleR1, sampleR2, sampleR3]).image_status = {"poor"} := by
  decide

/-- C2 counterexample: at the state reached by one `update` call, the
dict returned by `summary` is a successful result that has no
`image_status`, `conditions` or `tooth_ids` entry at all — so the summary
snapshot does not contain the three frequency counters (as read-only
copies or otherwise). -/
theorem C2_counterexample :
    (runUpdates [sampleR1]).summary.toOption.isSome = true ∧
    ((runUpdates [sampleR1]).summary.toOption.getD []).lookup "image_status" = none ∧
    ((runUpdates [sampleR1]).summary.toOption.getD []).lookup "conditions" = none ∧
    ((runUpdates [sampleR1]).summary.toOption.getD []).lookup "tooth_ids" = none := by
  decide

/-- C2 amended: for every accumulator state with at least one update
applied, the snapshot returned by `summary` contains exactly the total
image count, total box count and the boxes-per-image statistics — the
three frequency counters are not part of it (they are attached to the
output of `describe`, which stores the accumulator's counter objects
themselves rather than copies). -/
theorem C2_amended (s : DatasetStats) (h : s.boxes_per_image ≠ []) :
    s.summary.toOption.isSome = true ∧
    (s.summary.toOption.getD []).map Prod.fst = ["images", "boxes", "boxes_per_image"] ∧
    (s.summary.toOption.getD []).lookup "image_status" = none ∧
    (s.summary.toOption.getD []).lookup "conditions" = none ∧
    (s.summary.toOption.getD []).lookup "tooth_ids" = none :=
  summary_keys s h

/-- Witness for C2 amended, at the state reached by one update. -/
theorem C2_amended_witness :
    (runUpdates [sampleR1]).boxes_per_image ≠ [] ∧
    ((runUpdates [sampleR1]).summary.toOption.isSome = true ∧
      ((runUpdates [sampleR1]).summary.toOption.getD []).map Prod.fst
        = ["images", "boxes", "boxes_per_image"] ∧
      ((runUpdates [sampleR1]).summary.toOption.getD []).lookup "image_status" = none ∧
      ((runUpdates [sampleR1]).summary.toOption.getD []).lookup "conditions" = none ∧
      ((runUpdates [sampleR1]).summary.toOption.getD []).lookup "tooth_ids" = none) :=
  ⟨by decide, C2_amended (runUpdates [sampleR1]) (by decide)⟩

/-- C3 counterexample: over a one-image corpus with the image-loading
flag set at construction, running the annotation iterator to exhaustion
opens and decodes one image (load count 1), refuting that images are
never loaded in this mode regardless of the flag. -/
theorem C3_counterexample :
    (InReDDDataset.make sampleFS1 true none true).toOption.map
      (fun ds => ds.iterAnns) = some (.ok ([sampleR1], 1)) ∧
    ¬ (InReDDDataset.make sampleFS1 true none true).toOption.map
      (fun ds => ds.iterAnns) = some (.ok ([sampleR1], 0)) := by
  decide

/-- C3 amended: the annotation iterator yields one annotation per index
and, when the image-loading flag is false (as in the statistics path
`describe`), the whole pass opens no image; with the flag set, each step
loads the image of the pair before discarding it. -/
theorem C3_amended (ds : InReDDDataset) (h : ds.load_images = false)
    (anns : List Ann) (n : Nat) (hit : ds.iterAnns = .ok (anns, n)) :
    n = 0 ∧ anns.length = ds.ids.length := by
  have hr := iterFrom_no_load ds h (List.range ds.ids.length) anns n hit
  exact ⟨hr.1, by rw [hr.2, List.length_range]⟩

/-- Witness for C3 amended, on the one-image corpus with loading off. -/
theorem C3_amended_witness :
    sampleDSnoLoad.load_images = false ∧
    sampleDSnoLoad.iterAnns = .ok ([sampleR1], 0) ∧
    (0 = 0 ∧ ([sampleR1] : List Ann).length = sampleDSnoLoad.ids.length) :=
  ⟨rfl, by decide, C3_amended sampleDSnoLoad rfl [sampleR1] 0 (by decide)⟩

/-- C4: whenever no file under `images/` has an allowed extension (as
seen by the chosen recursive or shallow traversal), construction itself
returns `FileNotFoundError`; no dataset value is ever produced, so the
failure cannot be deferred to a later access. -/
theorem C4_empty_scan_fails (fs : FSModel) (li : Bool)
    (tr : Option ((Option PilImage × Ann) → (Option PilImage × Ann))) (rec : Bool)
    (h : ∀ f ∈ fs.imgFiles, ¬ (f.ext ∈ IMG_EXTS ∧ (rec = true ∨ f.depth = 0))) :
    InReDDDataset.make fs li tr rec = .error .fileNotFound := by
  unfold InReDDDataset.make
  rw [scanStems_eq_nil fs rec h]
  rfl

/-- Witness for C4, on a directory holding only `a.txt`. -/
theorem C4_witness :
    (∀ f ∈ sampleFS0.imgFiles, ¬ (f.ext ∈ IMG_EXTS ∧ (true = true ∨ f.depth = 0))) ∧
    InReDDDataset.make sampleFS0 false none true = .error .fileNotFound :=
  ⟨by decide, C4_empty_scan_fails sampleFS0 false none true (by decide)⟩

/-- C5: when at least one file with an allowed extension is visible to
the scan, construction succeeds and the identifier list is strictly
sorted, duplicate-free, and as long as the number of distinct stems among
the scanned files. -/
theorem C5_ids_sorted_distinct (fs : FSModel) (li : Bool)
    (tr : Option ((Option PilImage × Ann) → (Option PilImage × Ann))) (rec : Bool)
    (h : ∃ f ∈ fs.imgFiles, f.ext ∈ IMG_EXTS ∧ (rec = true ∨ f.depth = 0)) :
    (InReDDDataset.make fs li tr rec).isOk = true ∧
    ∀ ds, InReDDDataset.make fs li tr rec = .ok ds →
      List.Sorted (· < ·) ds.ids ∧ ds.ids.Nodup ∧
      ds.ids.length = (scanStems fs rec).toFinset.card := by
  obtain ⟨f, hf, he, hd⟩ := h
  have hmem := mem_scanStems fs rec f hf he hd
  have hmem2 : f.stem ∈ (scanStems fs rec).dedup.insertionSort (· ≤ ·) :=
    (List.perm_insertionSort _ _).mem_iff.mpr (List.mem_dedup.mpr hmem)
  have hne := List.ne_nil_of_mem hmem2
  have hempty : ((scanStems fs rec).dedup.insertionSort (· ≤ ·)).isEmpty = false := by
    rcases hcase : (scanStems fs rec).dedup.insertionSort (· ≤ ·) with _ | ⟨y, ys⟩
    · exact absurd hcase hne
    · rfl
  have hmk : InReDDDataset.make fs li tr rec
      = .ok { fs := fs, ids := (scanStems fs rec).dedup.insertionSort (· ≤ ·),
              load_images := li, transforms := tr } := by
    unfold InReDDDataset.make
    simp only [hempty]
    rfl
  refine ⟨by rw [hmk]; rfl, ?_⟩
  intro ds hds
  rw [hmk] at hds
  have hd2 := Except.ok.inj hds
  rw [← hd2]
  refine ⟨?_, ?_, ?_⟩
  · exact (List.sorted_insertionSort _ _).lt_of_le
      ((List.perm_insertionSort _ _).nodup_iff.mpr (List.nodup_dedup _))
  · exact (List.perm_insertionSort _ _).nodup_iff.mpr (List.nodup_dedup _)
  · exact (List.perm_insertionSort _ _).length_eq.trans (List.card_toFinset _).symm

/-- Witness for C5, on the one-image corpus. -/
theorem C5_witness :
    (∃ f ∈ sampleFS1.imgFiles, f.ext ∈ IMG_EXTS ∧ (true = true ∨ f.depth = 0)) ∧
    (InReDDDataset.make sampleFS1 false none true).isOk = true ∧
    (List.Sorted (· < ·) sampleDSnoLoad.ids ∧ sampleDSnoLoad.ids.Nodup ∧
      sampleDSnoLoad.ids.length = (scanStems sampleFS1 true).toFinset.card) :=
  ⟨by decide,
   (C5_ids_sorted_distinct sampleFS1 false none true (by decide)).1,
   (C5_ids_sorted_distinct sampleFS1 false none true (by decide)).2
     sampleDSnoLoad rfl⟩

/-- C6: calling `summary` on a fresh accumulator (no update, empty
box-count history) raises `StatisticsError` rather than returning any
(zero-filled or partial) result. -/
theorem C6_summary_empty_fails :
    DatasetStats.init.summary = .error .statisticsError := by
  decide

/-- C7: on any state with at least one update applied, `summary` leaves
the accumulator unchanged and two consecutive calls with no intervening
update return equal snapshots. -/
theorem C7_summary_idempotent (s : DatasetStats) (_h : s.boxes_per_image ≠ []) :
    s.summaryOp.1 = s ∧ s.summaryOp.1.summaryOp.2 = s.summaryOp.2 :=
  ⟨rfl, rfl⟩

/-- Witness for C7, at the state reached by one update. -/
theorem C7_witness :
    (runUpdates [sampleR1]).boxes_per_image ≠ [] ∧
    ((runUpdates [sampleR1]).summaryOp.1 = runUpdates [sampleR1] ∧
      (runUpdates [sampleR1]).summaryOp.1.summaryOp.2
        = (runUpdates [sampleR1]).summaryOp.2) :=
  ⟨by decide, C7_summary_idempotent (runUpdates [sampleR1]) (by decide)⟩

/-- C8: two passes over permuted record lists produce identical frequency
counters, identical total box count and an identical summary (image
count, mean, median, min, max); only the history order may differ. -/
theorem C8_order_independence (l₁ l₂ : List Ann) (h : l₁.Perm l₂) :
    (runUpdates l₁).image_status = (runUpdates l₂).image_status ∧
    (runUpdates l₁).conditions = (runUpdates l₂).conditions ∧
    (runUpdates l₁).tooth_ids = (runUpdates l₂).tooth_ids ∧
    (runUpdates l₁).n_boxes_total = (runUpdates l₂).n_boxes_total ∧
    (runUpdates l₁).summary = (runUpdates l₂).summary := by
  have hperm : ((runUpdates l₁).boxes_per_image).Perm
      ((runUpdates l₂).boxes_per_image) := by
    rw [runUpdates_boxes_per_image, runUpdates_boxes_per_image]
    exact h.map _
  have htot : (runUpdates l₁).n_boxes_total = (runUpdates l₂).n_boxes_total := by
    rw [runUpdates_n_boxes_total, runUpdates_n_boxes_total]
    exact (h.map _).sum_eq
  refine ⟨?_, ?_, ?_, htot, summary_congr _ _ hperm htot⟩
  · rw [runUpdates_image_status, runUpdates_image_status]; exact (h.map _).sum_eq
  · rw [runUpdates_conditions, runUpdates_conditions]; exact (h.map _).sum_eq
  · rw [runUpdates_tooth_ids, runUpdates_tooth_ids]; exact (h.map _).sum_eq

/-- Witness for C8, on a rotation of the three scenario records. -/
theorem C8_witness :
    ([sampleR1, sampleR2, sampleR3].Perm [sampleR3, sampleR1, sampleR2]) ∧
    ((runUpdates [sampleR1, sampleR2, sampleR3]).image_status
        = (runUpdates [sampleR3, sampleR1, sampleR2]).image_status ∧
      (runUpdates [sampleR1, sampleR2, sampleR3]).conditions
        = (runUpdates [sampleR3, sampleR1, sampleR2]).conditions ∧
      (runUpdates [sampleR1, sampleR2, sampleR3]).tooth_ids
        = (runUpdates [sampleR3, sampleR1, sampleR2]).tooth_ids ∧
      (runUpdates [sampleR1, sampleR2, sampleR3]).n_boxes_total
        = (runUpdates [sampleR3, sampleR1, sampleR2]).n_boxes_total ∧
      (runUpdates [sampleR1, sampleR2, sampleR3]).summary
        = (runUpdates [sampleR3, sampleR1, sampleR2]).summary) :=
  ⟨by decide, C8_order_independence _ _ (by decide)⟩

/-- Counting helper for C9: how often one pass over a list of objects
hits the `tooth_ids` counter at key `k`. -/
theorem objsTooth_count (objs : List AnnObj) (k : String) :
    ((objs.map objTooth).sum).count k
      = objs.countP (fun o => o.tooth_id.map TId.toStr == some k) := by
  induction objs with
  | nil => simp
  | cons o rest ih =>
    rw [List.map_cons, List.sum_cons, Multiset.count_add, List.countP_cons, ih]
    cases ho : o.tooth_id with
    | none => simp [objTooth, ho]
    | some tid =>
      by_cases hk : tid.toStr = k
      · simp [objTooth, ho, hk, Multiset.count_singleton, Nat.add_comm]
      · simp [objTooth, ho, hk, Multiset.count_singleton, Ne.symm hk]

/-- C9: one `update` call raises the tooth-ID counter at key `k` by
exactly the number of objects of the record that carry a `tooth_id` field
whose string form is `k` — presence decides, so falsy-but-present values
such as 0 or the empty string count, and objects without the field
contribute nothing. -/
theorem C9_tooth_id_counting (s : DatasetStats) (a : Ann) (k : String) :
    ((s.update a).tooth_ids).count k
      = s.tooth_ids.count k
        + a.normalize.countP (fun o => o.tooth_id.map TId.toStr == some k) := by
  rw [update_tooth_ids, Multiset.count_add]
  congr 1
  exact objsTooth_count a.normalize k

/-- C10: after any sequence of updates on a fresh accumulator, the
running total equals the sum of the per-image history, the history length
equals the number of updates, and a successful summary reports exactly
these values in its `boxes` and `images` entries. -/
theorem C10_total_invariant (l : List Ann) :
    (runUpdates l).n_boxes_total = (runUpdates l).boxes_per_image.sum ∧
    (runUpdates l).boxes_per_image.length = l.length ∧
    ∀ d, (runUpdates l).summary = .ok d →
      d.lookup "boxes" = some (.nat (runUpdates l).boxes_per_image.sum) ∧
      d.lookup "images" = some (.nat l.length) := by
  have hb := runUpdates_boxes_per_image l
  have ht := runUpdates_n_boxes_total l
  have h1 : (runUpdates l).n_boxes_total = (runUpdates l).boxes_per_image.sum := by
    rw [hb, ht]
  have h2 : (runUpdates l).boxes_per_image.length = l.length := by
    rw [hb, List.length_map]
  refine ⟨h1, h2, ?_⟩
  intro d hd
  unfold DatasetStats.summary at hd
  rcases hh : (runUpdates l).boxes_per_image with _ | ⟨x, xs⟩ <;>
    rw [hh] at hd <;> dsimp only at hd
  · cases hd
  · have hd2 := Except.ok.inj hd
    rw [← hd2]
    have h3 : (x :: xs).length = l.length := by rw [← hh, h2]
    constructor
    · have h1x : (runUpdates l).n_boxes_total = (x :: xs).sum := by rw [h1, hh]
      rw [← h1x]
      simp [List.lookup]
    · rw [← h3]
      simp [List.lookup]

/-- Witness for C10, after a single one-object update. -/
theorem C10_witness :
    (runUpdates [sampleR1]).summary = .ok sampleSummary1 ∧
    sampleSummary1.lookup "boxes"
      = some (.nat (runUpdates [sampleR1]).boxes_per_image.sum) ∧
    sampleSummary1.lookup "images" = some (.nat 1) := by
  refine ⟨by decide, ((C10_total_invariant [sampleR1]).2.2 sampleSummary1 (by decide)).1, ?_⟩
  have h := ((C10_total_invariant [sampleR1]).2.2 sampleSummary1 (by decide)).2
  simpa using h

end InReDD
